import Mathlib

/-!
Verification of the turn-orchestration core of a voice "game master" agent
(`backend/src/agent.py`).  The core is the class `VoiceGM`: a `PlayerMemory`
record, a turn counter, and the method `run` that advances one turn,
optionally logs the player utterance, dispatches on the turn number to one of
six scene functions, and returns the narration string.
-/

/-- The dataclass `PlayerMemory` (agent.py lines 42-49).  Python ints are
unbounded, so `health` is `Int`; the list fields are `List String`. -/
structure PlayerMemory where
  name : String
  health : Int
  inventory : List String
  allies : List String
  visited_places : List String
  past_actions : List String
deriving Repr, DecidableEq

/-- The dataclass defaults of `PlayerMemory`, with the `name` argument as
passed at construction (`PlayerMemory(name="Arin")` passes only `name`). -/
def PlayerMemory.mkDefault (name : String) : PlayerMemory :=
  { name := name
    health := 100
    inventory := []
    allies := []
    visited_places := []
    past_actions := [] }

/-- The mutable state of a `VoiceGM` instance: `self.memory`, `self.turn`,
`self.max_turns` (agent.py lines 67-69). -/
structure GMState where
  memory : PlayerMemory
  turn : Nat
  max_turns : Nat
deriving Repr, DecidableEq

/-- `VoiceGM.__init__` (agent.py lines 67-69): memory with name "Arin",
turn counter 0, max_turns 10. -/
def initGM : GMState :=
  { memory := PlayerMemory.mkDefault "Arin"
    turn := 0
    max_turns := 10 }

/-- `VoiceGM.scene_1` (agent.py lines 97-99): appends "Tavern" to
visited_places and returns the tavern narration. -/
def scene_1 (m : PlayerMemory) : String × PlayerMemory :=
  ("You are in a quiet tavern near a dark forest. The fire is low. A small gnome says someone stole a map. What do you do?",
   { m with visited_places := m.visited_places ++ ["Tavern"] })

/-- `VoiceGM.scene_2` (agent.py lines 101-103): appends "Fenrix" to allies;
the `action` argument is unused. -/
def scene_2 (action : String) (m : PlayerMemory) : String × PlayerMemory :=
  ("A hooded ranger named Fenrix stands up. He offers to help you find the map. What do you do?",
   { m with allies := m.allies ++ ["Fenrix"] })

/-- `VoiceGM.scene_3` (agent.py lines 105-108): appends "Forest" to
visited_places and "Map Scrap" to inventory; `action` unused. -/
def scene_3 (action : String) (m : PlayerMemory) : String × PlayerMemory :=
  ("You walk into the forest. You find a small piece of paper with a star mark on it. It might be part of the map. What do you do?",
   { m with visited_places := m.visited_places ++ ["Forest"]
            inventory := m.inventory ++ ["Map Scrap"] })

/-- `VoiceGM.scene_4` (agent.py lines 110-112): decrements health by 10;
`action` unused. -/
def scene_4 (action : String) (m : PlayerMemory) : String × PlayerMemory :=
  ("You hear wolves. One jumps out and scares you. You lose a little health. Fenrix draws his bow to protect you. What do you do?",
   { m with health := m.health - 10 })

/-- `VoiceGM.generic_scene` (agent.py lines 114-115): no memory mutation,
interpolates the raw action into the narration (the f-string). -/
def generic_scene (action : String) (m : PlayerMemory) : String × PlayerMemory :=
  ("The world reacts to your action: " ++ action ++ ". You see the path ahead glowing with stars. What do you do?", m)

/-- `VoiceGM.final_scene` (agent.py lines 117-118): no memory mutation,
fixed narration. -/
def final_scene (m : PlayerMemory) : String × PlayerMemory :=
  ("You reach a stone door with a glowing star mark. Fenrix nods at you. The door opens slowly. A new quest begins. What do you do?", m)

/-- `VoiceGM.run` (agent.py lines 71-93).  One call advances one turn:
increments the turn counter, appends the truncated utterance to
past_actions when the utterance is non-empty (Python string truthiness,
`player_input[:80]`), then dispatches on the new turn value through the
if/elif chain of lines 79-90, in that order: turn equal to 1, 2, 3, 4,
then turn at least max_turns, then the generic fallback.  Returns the
narration together with the updated state. -/
def run (player_input : String) (s : GMState) : String × GMState :=
  let turn := s.turn + 1
  let memory :=
    if player_input ≠ "" then
      { s.memory with past_actions := s.memory.past_actions ++ [player_input.take 80] }
    else s.memory
  let result :=
    if turn = 1 then scene_1 memory
    else if turn = 2 then scene_2 player_input memory
    else if turn = 3 then scene_3 player_input memory
    else if turn = 4 then scene_4 player_input memory
    else if turn ≥ s.max_turns then final_scene memory
    else generic_scene player_input memory
  (result.1, { s with turn := turn, memory := result.2 })

/-- The step identifiers of the spec (section 4.2). -/
inductive Step where
  | OpeningScene
  | AllyIntroduction
  | ForestDiscovery
  | WolfEncounter
  | FinalScene
  | GenericReaction
deriving Repr, DecidableEq

/-- The turn-to-step selection: the conditions of the if/elif chain of
`VoiceGM.run` (agent.py lines 79-90), in the order the code tests them,
abstracted from the scene bodies.  It depends only on the turn counter and
`max_turns`, never on the utterance. -/
def selectStep (turn max_turns : Nat) : Step :=
  if turn = 1 then Step.OpeningScene
  else if turn = 2 then Step.AllyIntroduction
  else if turn = 3 then Step.ForestDiscovery
  else if turn = 4 then Step.WolfEncounter
  else if turn ≥ max_turns then Step.FinalScene
  else Step.GenericReaction

/-- Dispatch of a step identifier to its scene function, matching the
branch bodies of `VoiceGM.run`. -/
def runStep (step : Step) (action : String) (m : PlayerMemory) : String × PlayerMemory :=
  match step with
  | Step.OpeningScene => scene_1 m
  | Step.AllyIntroduction => scene_2 action m
  | Step.ForestDiscovery => scene_3 action m
  | Step.WolfEncounter => scene_4 action m
  | Step.FinalScene => final_scene m
  | Step.GenericReaction => generic_scene action m

/-- The past_actions logging of `VoiceGM.run` lines 76-77, as a function on
the memory record. -/
def loggedMemory (player_input : String) (m : PlayerMemory) : PlayerMemory :=
  if player_input ≠ "" then
    { m with past_actions := m.past_actions ++ [player_input.take 80] }
  else m

/-- One turn advanced through an explicitly given step identifier. -/
def advanceVia (step : Step) (player_input : String) (s : GMState) : String × GMState :=
  let result := runStep step player_input (loggedMemory player_input s.memory)
  (result.1, { s with turn := s.turn + 1, memory := result.2 })

/-- A whole session: fold `run` over a list of player utterances, keeping
the final state. -/
def runSeq (inputs : List String) (s : GMState) : GMState :=
  match inputs with
  | [] => s
  | u :: rest => runSeq rest (run u s).2

/-- The string `s` ends with the exact substring `post`. -/
def strEndsWith (s post : String) : Prop :=
  ∃ pre : String, s = pre ++ post

/-- The closing prompt every narration is supposed to end with. -/
def closingPrompt : String := "What do you do?"

-- ------------------------------------------------------------------
-- Helper lemmas
-- ------------------------------------------------------------------

/-- `run` is `advanceVia` of the step chosen by `selectStep` from the
incremented turn counter and `max_turns` alone. -/
theorem run_eq_advanceVia (u : String) (s : GMState) :
    run u s = advanceVia (selectStep (s.turn + 1) s.max_turns) u s := by
  simp only [run, advanceVia, selectStep, runStep, loggedMemory]
  split_ifs <;> rfl

theorem runStep_turnfree (step : Step) (u : String) (m : PlayerMemory) :
    (runStep step u m).2.name = m.name ∧
    (runStep step u m).2.past_actions = m.past_actions := by
  cases step <;>
    simp [runStep, scene_1, scene_2, scene_3, scene_4, generic_scene, final_scene]

theorem runStep_appends (step : Step) (u : String) (m : PlayerMemory) :
    (∃ t, (runStep step u m).2.visited_places = m.visited_places ++ t) ∧
    (∃ t, (runStep step u m).2.inventory = m.inventory ++ t) ∧
    (∃ t, (runStep step u m).2.allies = m.allies ++ t) := by
  cases step <;>
    simp [runStep, scene_1, scene_2, scene_3, scene_4, generic_scene, final_scene]

theorem loggedMemory_fields (u : String) (m : PlayerMemory) :
    (loggedMemory u m).name = m.name ∧
    (loggedMemory u m).health = m.health ∧
    (loggedMemory u m).inventory = m.inventory ∧
    (loggedMemory u m).allies = m.allies ∧
    (loggedMemory u m).visited_places = m.visited_places := by
  unfold loggedMemory
  split_ifs <;> simp

theorem runStep_lengths (step : Step) (u : String) (m : PlayerMemory) :
    (runStep step u m).2.visited_places.length =
      m.visited_places.length
        + (if step = Step.OpeningScene ∨ step = Step.ForestDiscovery then 1 else 0) ∧
    (runStep step u m).2.inventory.length =
      m.inventory.length + (if step = Step.ForestDiscovery then 1 else 0) ∧
    (runStep step u m).2.allies.length =
      m.allies.length + (if step = Step.AllyIntroduction then 1 else 0) := by
  cases step <;>
    simp [runStep, scene_1, scene_2, scene_3, scene_4, generic_scene, final_scene]

theorem runStep_health (step : Step) (u : String) (m : PlayerMemory) :
    (runStep step u m).2.health =
      m.health - (if step = Step.WolfEncounter then 10 else 0) := by
  cases step <;>
    simp [runStep, scene_1, scene_2, scene_3, scene_4, generic_scene, final_scene]

theorem selectStep_numbered (turn mt : Nat) :
    (selectStep turn mt = Step.OpeningScene ↔ turn = 1) ∧
    (selectStep turn mt = Step.AllyIntroduction ↔ turn = 2) ∧
    (selectStep turn mt = Step.ForestDiscovery ↔ turn = 3) ∧
    (selectStep turn mt = Step.WolfEncounter ↔ turn = 4) := by
  unfold selectStep
  split_ifs <;> simp_all <;> omega

theorem run_turn (u : String) (s : GMState) : (run u s).2.turn = s.turn + 1 := rfl

theorem run_lengths (u : String) (s : GMState) :
    (run u s).2.memory.visited_places.length =
      s.memory.visited_places.length
        + (if s.turn + 1 = 1 ∨ s.turn + 1 = 3 then 1 else 0) ∧
    (run u s).2.memory.inventory.length =
      s.memory.inventory.length + (if s.turn + 1 = 3 then 1 else 0) ∧
    (run u s).2.memory.allies.length =
      s.memory.allies.length + (if s.turn + 1 = 2 then 1 else 0) := by
  rw [run_eq_advanceVia]
  simp only [advanceVia]
  obtain ⟨hv, hi, ha⟩ := runStep_lengths (selectStep (s.turn + 1) s.max_turns) u
    (loggedMemory u s.memory)
  obtain ⟨-, -, hli, hla, hlv⟩ := loggedMemory_fields u s.memory
  obtain ⟨e1, e2, e3, e4⟩ := selectStep_numbered (s.turn + 1) s.max_turns
  refine ⟨?_, ?_, ?_⟩ <;>
    simp only [hv, hi, ha, hli, hla, hlv, e1, e2, e3, e4]

theorem run_health (u : String) (s : GMState) :
    (run u s).2.memory.health =
      s.memory.health - (if s.turn + 1 = 4 then 10 else 0) := by
  rw [run_eq_advanceVia]
  simp only [advanceVia]
  have hh := runStep_health (selectStep (s.turn + 1) s.max_turns) u
    (loggedMemory u s.memory)
  obtain ⟨-, hmh, -, -, -⟩ := loggedMemory_fields u s.memory
  obtain ⟨-, -, -, e4⟩ := selectStep_numbered (s.turn + 1) s.max_turns
  simp only [hh, hmh, e4]

theorem runSeq_turn (inputs : List String) (s : GMState) :
    (runSeq inputs s).turn = s.turn + inputs.length := by
  induction inputs generalizing s with
  | nil => simp [runSeq]
  | cons u rest ih =>
      rw [runSeq, ih, run_turn]
      simp only [List.length_cons]
      omega

theorem runSeq_lengths (inputs : List String) (s : GMState) :
    (runSeq inputs s).memory.visited_places.length =
      s.memory.visited_places.length
        + (if s.turn < 1 ∧ 1 ≤ s.turn + inputs.length then 1 else 0)
        + (if s.turn < 3 ∧ 3 ≤ s.turn + inputs.length then 1 else 0) ∧
    (runSeq inputs s).memory.inventory.length =
      s.memory.inventory.length
        + (if s.turn < 3 ∧ 3 ≤ s.turn + inputs.length then 1 else 0) ∧
    (runSeq inputs s).memory.allies.length =
      s.memory.allies.length
        + (if s.turn < 2 ∧ 2 ≤ s.turn + inputs.length then 1 else 0) := by
  induction inputs generalizing s with
  | nil =>
      simp only [runSeq, List.length_nil]
      refine ⟨?_, ?_, ?_⟩ <;> (split_ifs <;> omega)
  | cons u rest ih =>
      rw [runSeq]
      obtain ⟨iv, ii, ia⟩ := ih (run u s).2
      obtain ⟨rv, ri, ra⟩ := run_lengths u s
      rw [iv, ii, ia, rv, ri, ra, run_turn]
      simp only [List.length_cons]
      refine ⟨?_, ?_, ?_⟩ <;> (split_ifs <;> omega)

theorem runSeq_health (inputs : List String) (s : GMState) :
    (runSeq inputs s).memory.health =
      s.memory.health - (if s.turn < 4 ∧ 4 ≤ s.turn + inputs.length then 10 else 0) := by
  induction inputs generalizing s with
  | nil =>
      simp only [runSeq, List.length_nil]
      split_ifs <;> omega
  | cons u rest ih =>
      rw [runSeq, ih (run u s).2, run_health, run_turn]
      simp only [List.length_cons]
      split_ifs <;> omega

theorem strEndsWith_append (a b p : String) (h : strEndsWith b p) :
    strEndsWith (a ++ b) p := by
  obtain ⟨pre, rfl⟩ := h
  exact ⟨a ++ pre, (String.append_assoc a pre p).symm⟩

-- ------------------------------------------------------------------
-- Claim theorems
-- ------------------------------------------------------------------

/-- C1 counterexample: the claim says the FinalScene narration does not end
with "What do you do?", but it does.  With max_turns 10 and the turn counter
at 10, a call to run selects FinalScene, and the narration returned ends
with the closing prompt. -/
theorem final_narration_has_prompt :
    selectStep 11 10 = Step.FinalScene ∧
    strEndsWith
      (run "" { memory := PlayerMemory.mkDefault "Arin", turn := 10, max_turns := 10 }).1
      closingPrompt := by
  refine ⟨by decide, ⟨"You reach a stone door with a glowing star mark. Fenrix nods at you. The door opens slowly. A new quest begins. ", ?_⟩⟩
  rfl

/-- C1 (amended): every narration returned by run ends with the exact
substring "What do you do?" - for OpeningScene, AllyIntroduction,
ForestDiscovery, WolfEncounter and GenericReaction as the claim states, and
also for FinalScene (contrary to the claim). -/
theorem narration_has_closing_prompt (u : String) (s : GMState) :
    strEndsWith (run u s).1 closingPrompt := by
  rw [run_eq_advanceVia]
  cases hsel : selectStep (s.turn + 1) s.max_turns <;>
    simp only [advanceVia, runStep, scene_1, scene_2, scene_3, scene_4,
      generic_scene, final_scene]
  case OpeningScene =>
    exact ⟨"You are in a quiet tavern near a dark forest. The fire is low. A small gnome says someone stole a map. ", rfl⟩
  case AllyIntroduction =>
    exact ⟨"A hooded ranger named Fenrix stands up. He offers to help you find the map. ", rfl⟩
  case ForestDiscovery =>
    exact ⟨"You walk into the forest. You find a small piece of paper with a star mark on it. It might be part of the map. ", rfl⟩
  case WolfEncounter =>
    exact ⟨"You hear wolves. One jumps out and scares you. You lose a little health. Fenrix draws his bow to protect you. ", rfl⟩
  case FinalScene =>
    exact ⟨"You reach a stone door with a glowing star mark. Fenrix nods at you. The door opens slowly. A new quest begins. ", rfl⟩
  case GenericReaction =>
    exact strEndsWith_append ("The world reacts to your action: " ++ u)
      ". You see the path ahead glowing with stars. What do you do?" closingPrompt
      ⟨". You see the path ahead glowing with stars. ", rfl⟩

/-- C2 counterexample: the claim says turn ≥ max_turns always selects
FinalScene, taking precedence over the numbered slots.  With max_turns
reconfigured to 3, turn 3 satisfies 3 ≥ 3, yet the selection is
ForestDiscovery, not FinalScene, because the code tests the numbered slots
first; the corresponding run call returns the forest narration. -/
theorem numbered_slot_overrides_final :
    3 ≥ 3 ∧
    selectStep 3 3 = Step.ForestDiscovery ∧
    selectStep 3 3 ≠ Step.FinalScene ∧
    (run "go" { memory := PlayerMemory.mkDefault "Arin", turn := 2, max_turns := 3 }).1 =
      (scene_3 "go" (PlayerMemory.mkDefault "Arin")).1 := by
  refine ⟨by decide, by decide, by decide, rfl⟩

/-- C2 (amended): the turn ≥ max_turns check is evaluated after the four
numbered slots but before the generic fallback: whenever turn ≥ max_turns
and turn is none of 1, 2, 3, 4, the selected step is FinalScene.  The
numbered slots take precedence when they overlap. -/
theorem final_check_before_generic (turn mt : Nat)
    (h : mt ≤ turn) (h1 : turn ≠ 1) (h2 : turn ≠ 2) (h3 : turn ≠ 3) (h4 : turn ≠ 4) :
    selectStep turn mt = Step.FinalScene := by
  unfold selectStep
  split_ifs <;> first | rfl | omega

theorem final_check_before_generic_witness :
    selectStep 10 10 = Step.FinalScene :=
  final_check_before_generic 10 10 (by decide) (by decide) (by decide) (by decide)
    (by decide)

/-- C3: with max_turns 10, turns 1 to 4 select OpeningScene,
AllyIntroduction, ForestDiscovery, WolfEncounter respectively; every turn in
[5,9] selects GenericReaction; and run dispatches through selectStep, which
is a function of the turn counter and max_turns only, never of the
utterance. -/
theorem default_schedule (u : String) (s : GMState) (k : Nat)
    (h5 : 5 ≤ k) (h9 : k ≤ 9) :
    selectStep 1 10 = Step.OpeningScene ∧
    selectStep 2 10 = Step.AllyIntroduction ∧
    selectStep 3 10 = Step.ForestDiscovery ∧
    selectStep 4 10 = Step.WolfEncounter ∧
    selectStep k 10 = Step.GenericReaction ∧
    run u s = advanceVia (selectStep (s.turn + 1) s.max_turns) u s := by
  refine ⟨by decide, by decide, by decide, by decide, ?_, run_eq_advanceVia u s⟩
  unfold selectStep
  split_ifs <;> first | rfl | omega

theorem default_schedule_witness :
    selectStep 1 10 = Step.OpeningScene ∧
    selectStep 2 10 = Step.AllyIntroduction ∧
    selectStep 3 10 = Step.ForestDiscovery ∧
    selectStep 4 10 = Step.WolfEncounter ∧
    selectStep 7 10 = Step.GenericReaction ∧
    run "look" initGM = advanceVia (selectStep (initGM.turn + 1) initGM.max_turns) "look" initGM :=
  default_schedule "look" initGM 7 (by decide) (by decide)

/-- C4: a call with a non-empty utterance appends exactly the utterance
truncated to at most 80 characters to past_actions; a call with an empty
utterance leaves past_actions unchanged. -/
theorem past_actions_per_call (u : String) (s : GMState) :
    (u ≠ "" → (run u s).2.memory.past_actions = s.memory.past_actions ++ [u.take 80]) ∧
    (u = "" → (run u s).2.memory.past_actions = s.memory.past_actions) := by
  rw [run_eq_advanceVia]
  simp only [advanceVia]
  rw [(runStep_turnfree (selectStep (s.turn + 1) s.max_turns) u
    (loggedMemory u s.memory)).2]
  constructor
  · intro h
    simp [loggedMemory, h]
  · intro h
    simp [loggedMemory, h]

theorem past_actions_per_call_witness :
    (run "look around" initGM).2.memory.past_actions =
      initGM.memory.past_actions ++ ["look around".take 80] :=
  (past_actions_per_call "look around" initGM).1 (by decide)

/-- C5: every call to run increments the turn counter by exactly 1 and
never decrements it; two successive calls from any state advance it by 2 in
total, each returning a narration string (run is not idempotent). -/
theorem turn_strictly_increments (u v : String) (s : GMState) :
    (run u s).2.turn = s.turn + 1 ∧
    (run v (run u s).2).2.turn = s.turn + 2 :=
  ⟨rfl, rfl⟩

/-- C6: each call extends visited_places, inventory, allies and
past_actions only by appending at the end (existing entries stay in place
and in order), and over any whole session from the initial state the
lengths of visited_places, inventory and allies never exceed 2, 1 and 1
respectively. -/
theorem memory_append_only_and_bounded (u : String) (s : GMState)
    (inputs : List String) :
    (∃ t, (run u s).2.memory.visited_places = s.memory.visited_places ++ t) ∧
    (∃ t, (run u s).2.memory.inventory = s.memory.inventory ++ t) ∧
    (∃ t, (run u s).2.memory.allies = s.memory.allies ++ t) ∧
    (∃ t, (run u s).2.memory.past_actions = s.memory.past_actions ++ t) ∧
    (runSeq inputs initGM).memory.visited_places.length ≤ 2 ∧
    (runSeq inputs initGM).memory.inventory.length ≤ 1 ∧
    (runSeq inputs initGM).memory.allies.length ≤ 1 := by
  have e := run_eq_advanceVia u s
  obtain ⟨av, ai, aa⟩ := runStep_appends (selectStep (s.turn + 1) s.max_turns) u
    (loggedMemory u s.memory)
  obtain ⟨-, -, hli, hla, hlv⟩ := loggedMemory_fields u s.memory
  have hpa := (runStep_turnfree (selectStep (s.turn + 1) s.max_turns) u
    (loggedMemory u s.memory)).2
  obtain ⟨sv, si, sa⟩ := runSeq_lengths inputs initGM
  refine ⟨?_, ?_, ?_, ?_, ?_, ?_, ?_⟩
  · rw [e]; simpa only [advanceVia, hlv] using av
  · rw [e]; simpa only [advanceVia, hli] using ai
  · rw [e]; simpa only [advanceVia, hla] using aa
  · rw [e]
    simp only [advanceVia, hpa]
    unfold loggedMemory
    split_ifs
    · exact ⟨[u.take 80], rfl⟩
    · exact ⟨[], by simp⟩
  · rw [sv]; simp only [initGM, PlayerMemory.mkDefault]; split_ifs <;> simp
  · rw [si]; simp only [initGM, PlayerMemory.mkDefault]; split_ifs <;> simp
  · rw [sa]; simp only [initGM, PlayerMemory.mkDefault]; split_ifs <;> simp

/-- C7: the WolfEncounter step decrements health by exactly 10 with no
floor check and mutates no other memory field; from the state a default
session is in before its fourth call (turn counter 3, health 100), the call
leaves health at exactly 90, for every utterance. -/
theorem wolf_encounter_health (u : String) (m : PlayerMemory) (s : GMState)
    (ht : s.turn = 3) (hh : s.memory.health = 100) :
    (scene_4 u m).2 = { m with health := m.health - 10 } ∧
    (run u s).2.memory.health = 90 := by
  refine ⟨rfl, ?_⟩
  rw [run_health, ht, hh]
  simp

theorem wolf_encounter_health_witness :
    (scene_4 "I run" (PlayerMemory.mkDefault "Arin")).2 =
      { PlayerMemory.mkDefault "Arin" with
          health := (PlayerMemory.mkDefault "Arin").health - 10 } ∧
    (run "I run"
      { memory := PlayerMemory.mkDefault "Arin", turn := 3, max_turns := 10 }).2.memory.health = 90 :=
  wolf_encounter_health "I run" (PlayerMemory.mkDefault "Arin")
    { memory := PlayerMemory.mkDefault "Arin", turn := 3, max_turns := 10 } rfl rfl

/-- C8: once the turn counter has reached 9 with max_turns 10 (so the next
call is the 10th or a later one), every call to run returns the FinalScene
narration and mutates no memory field beyond the possible past_actions
append; such calls are never rejected (run is total and keeps
incrementing the counter). -/
theorem final_scene_saturation (u : String) (s : GMState)
    (hmt : s.max_turns = 10) (ht : 9 ≤ s.turn) :
    (run u s).1 = (final_scene s.memory).1 ∧
    (run u s).2.memory = loggedMemory u s.memory ∧
    (run u s).2.turn = s.turn + 1 := by
  have hsel : selectStep (s.turn + 1) s.max_turns = Step.FinalScene := by
    unfold selectStep
    rw [hmt]
    split_ifs <;> first | rfl | omega
  rw [run_eq_advanceVia, hsel]
  exact ⟨rfl, rfl, rfl⟩

theorem final_scene_saturation_witness :
    (run "again" { memory := PlayerMemory.mkDefault "Arin", turn := 10, max_turns := 10 }).1 =
      (final_scene (PlayerMemory.mkDefault "Arin")).1 ∧
    (run "again" { memory := PlayerMemory.mkDefault "Arin", turn := 10, max_turns := 10 }).2.memory =
      loggedMemory "again" (PlayerMemory.mkDefault "Arin") ∧
    (run "again" { memory := PlayerMemory.mkDefault "Arin", turn := 10, max_turns := 10 }).2.turn = 10 + 1 :=
  final_scene_saturation "again"
    { memory := PlayerMemory.mkDefault "Arin", turn := 10, max_turns := 10 } rfl (by decide)

/-- C9: no call to run ever changes the name field of the memory; it is set
to "Arin" at construction and never written afterwards. -/
theorem name_immutable (u : String) (s : GMState) :
    (run u s).2.memory.name = s.memory.name ∧ initGM.memory.name = "Arin" := by
  constructor
  · rw [run_eq_advanceVia]
    simp only [advanceVia]
    rw [(runStep_turnfree (selectStep (s.turn + 1) s.max_turns) u
      (loggedMemory u s.memory)).1]
    exact (loggedMemory_fields u s.memory).1
  · rfl

/-- C10: in the default configuration, health after N calls from the
initial state is 100 when N < 4 and 90 when N ≥ 4; in particular health
never drops below 90 within a session. -/
theorem health_trajectory (inputs : List String) :
    (runSeq inputs initGM).memory.health =
      (if inputs.length < 4 then (100 : Int) else 90) ∧
    (90 : Int) ≤ (runSeq inputs initGM).memory.health := by
  have h := runSeq_health inputs initGM
  have h0 : initGM.turn = 0 := rfl
  have h100 : initGM.memory.health = 100 := rfl
  rw [h0, h100] at h
  rw [h]
  constructor
  · split_ifs <;> omega
  · split_ifs <;> omega
